import Mathlib

/-!
Verification of the portfolio-tracker analytics core (src/app/services.py,
src/app/models.py) in a shallow embedding.

Modelling conventions:
* Python floats are modelled by exact rationals (ℚ).  Stored nullable
  columns (SQLAlchemy `Column(Float)`) are `Option ℚ` (`none` = SQL NULL /
  Python `None`).  Since every arithmetic step of the analytics operates on
  exact rationals, `math.isfinite` guards on quotients of finite values are
  vacuously true; the one place a non-finite float genuinely arises
  (a benchmark pct_change over a zero close) is modelled explicitly.
* Values that the source passes through `_safe_number` (holding quantity,
  average price, stored price) are modelled by `PyVal`: either a finite
  number or `PyVal.bad`, the latter standing for anything `float()` rejects
  (`None`, a non-numeric string) or a non-finite float (nan, ±inf).
* Calendar dates are natural numbers (ordinal days); only their ordering
  and equality matter to the source.
* `round(x, n)` is Python's round-half-to-even on the scaled value,
  modelled exactly on an ordered field (`pyRound`).
* The SQLAlchemy session is modelled by explicit lists of rows; the query
  `order_by(date).all()` corresponds to passing the snapshot list in
  ascending date order; commit that raises `IntegrityError` is modelled by
  a boolean oracle argument.
-/

namespace PortfolioTracker

/-- A stored float-typed value as `_safe_number` sees it: a finite number,
or anything it coerces to the default (`None`, non-numeric, nan, ±inf). -/
inductive PyVal where
  | num (q : ℚ)
  | bad
deriving DecidableEq, Repr

/-- `_safe_number` from services.py: `float(value)` if it succeeds and is
finite, else the default 0. -/
def safe_number (value : PyVal) : ℚ :=
  match value with
  | .num q => q
  | .bad => 0

/-- A `portfolio_snapshots` row (models.py `PortfolioSnapshot`; `id` is
irrelevant to the analytics and omitted). -/
structure Snapshot where
  total_value : Option ℚ
  total_invested : Option ℚ
  pnl : Option ℚ
  date : ℕ
deriving DecidableEq, Repr

/-- A snapshot holding just a total value, as the analytics read them. -/
def snapOf (d : ℕ) (v : ℚ) : Snapshot :=
  { total_value := some v, total_invested := none, pnl := none, date := d }

/-- Round half to even at `y` (Python's `round` on the scaled value). -/
def pyRoundHE {α : Type} [LinearOrderedField α] [FloorRing α] (y : α) : ℤ :=
  if y - (⌊y⌋ : α) < 1 / 2 then ⌊y⌋
  else if 1 / 2 < y - (⌊y⌋ : α) then ⌊y⌋ + 1
  else if ⌊y⌋ % 2 = 0 then ⌊y⌋ else ⌊y⌋ + 1

/-- Python's `round(x, n)`: banker's rounding of `x` at `n` decimal digits. -/
def pyRound {α : Type} [LinearOrderedField α] [FloorRing α] (n : ℕ) (x : α) : α :=
  ((pyRoundHE (x * (10 : α) ^ n) : ℤ) : α) / (10 : α) ^ n

theorem pyRoundHE_nonneg {α : Type} [LinearOrderedField α] [FloorRing α]
    {y : α} (h : 0 ≤ y) : 0 ≤ pyRoundHE y := by
  have hf : (0 : ℤ) ≤ ⌊y⌋ := Int.le_floor.mpr (by exact_mod_cast h)
  unfold pyRoundHE
  split_ifs <;> omega

theorem pyRoundHE_nonpos {α : Type} [LinearOrderedField α] [FloorRing α]
    {y : α} (h : y ≤ 0) : pyRoundHE y ≤ 0 := by
  have hf : ⌊y⌋ ≤ 0 := Int.floor_nonpos h
  unfold pyRoundHE
  split_ifs with h1 h2 h3
  · exact hf
  · -- here 1/2 < y - ⌊y⌋, so ⌊y⌋ < y - 1/2 ≤ -1/2 < 0
    have hlt : (⌊y⌋ : α) < 0 := by linarith
    have : ⌊y⌋ < 0 := by exact_mod_cast hlt
    omega
  · exact hf
  · -- the tie case with odd floor: y - ⌊y⌋ = 1/2 exactly
    have htie : y - (⌊y⌋ : α) = 1 / 2 := le_antisymm (not_lt.mp h2) (not_lt.mp h1)
    have hlt : (⌊y⌋ : α) < 0 := by linarith
    have : ⌊y⌋ < 0 := by exact_mod_cast hlt
    omega

theorem pyRound_nonneg {α : Type} [LinearOrderedField α] [FloorRing α]
    (n : ℕ) {x : α} (h : 0 ≤ x) : 0 ≤ pyRound n x := by
  unfold pyRound
  have hp : (0 : α) < (10 : α) ^ n := by positivity
  have hy : 0 ≤ x * (10 : α) ^ n := mul_nonneg h hp.le
  have := pyRoundHE_nonneg hy
  have hz : (0 : α) ≤ ((pyRoundHE (x * (10 : α) ^ n) : ℤ) : α) := by exact_mod_cast this
  positivity

theorem pyRound_nonpos {α : Type} [LinearOrderedField α] [FloorRing α]
    (n : ℕ) {x : α} (h : x ≤ 0) : pyRound n x ≤ 0 := by
  unfold pyRound
  have hp : (0 : α) < (10 : α) ^ n := by positivity
  have hy : x * (10 : α) ^ n ≤ 0 := mul_nonpos_of_nonpos_of_nonneg h hp.le
  have := pyRoundHE_nonpos hy
  have hz : ((pyRoundHE (x * (10 : α) ^ n) : ℤ) : α) ≤ 0 := by exact_mod_cast this
  exact div_nonpos_of_nonpos_of_nonneg hz hp.le

/-! ## Return series builder (`_build_daily_returns`) -/

/-- One iteration of the `for i in range(1, len(snapshots))` loop of
`_build_daily_returns`: the entry the pair `(i-1, i)` contributes, if any.
`prev is None or prev <= 0 or current is None` skips the pair; the
`math.isfinite` test on `(current - prev) / prev` is always true for finite
operands with `prev > 0`, hence does not appear. -/
def pairEntry (s : List Snapshot) (i : ℕ) : Option (ℕ × ℚ) :=
  match s.get? (i - 1), s.get? i with
  | some prevS, some curS =>
    match prevS.total_value, curS.total_value with
    | some p, some c => if 0 < p then some (curS.date, (c - p) / p) else none
    | _, _ => none
  | _, _ => none

/-- `_build_daily_returns`: the date-keyed daily return series, in loop
order.  The Python dict is keyed by snapshot dates, which the snapshot
store keeps unique, so an ordered association list is a faithful model. -/
def build_daily_returns (s : List Snapshot) : List (ℕ × ℚ) :=
  (List.range' 1 (s.length - 1)).filterMap (pairEntry s)

/-- `list(_build_daily_returns(snapshots).values())`. -/
def dailyReturnValues (s : List Snapshot) : List ℚ :=
  (build_daily_returns s).map Prod.snd

theorem build_daily_returns_length_le (s : List Snapshot) :
    (build_daily_returns s).length ≤ s.length - 1 := by
  calc (build_daily_returns s).length
      ≤ (List.range' 1 (s.length - 1)).length := List.length_filterMap_le _ _
    _ = s.length - 1 := List.length_range' _ _ _

theorem dailyReturnValues_length (s : List Snapshot) :
    (dailyReturnValues s).length = (build_daily_returns s).length :=
  List.length_map _ _

theorem pairEntry_eq_some_iff (s : List Snapshot) (i : ℕ) (d : ℕ) (r : ℚ) :
    pairEntry s i = some (d, r) ↔
      ∃ prevS curS, s.get? (i - 1) = some prevS ∧ s.get? i = some curS ∧
        ∃ p c, prevS.total_value = some p ∧ curS.total_value = some c ∧
          0 < p ∧ curS.date = d ∧ r = (c - p) / p := by
  constructor
  · intro h
    unfold pairEntry at h
    split at h
    case _ prevS curS h1 h2 =>
      split at h
      case _ p c h3 h4 =>
        split at h
        case isTrue hp =>
          have hinj := Option.some.inj h
          exact ⟨prevS, curS, h1, h2, p, c, h3, h4, hp,
            congrArg Prod.fst hinj, (congrArg Prod.snd hinj).symm⟩
        case isFalse => exact absurd h (by simp)
      case _ => exact absurd h (by simp)
    case _ => exact absurd h (by simp)
  · rintro ⟨prevS, curS, h1, h2, p, c, h3, h4, hp, hd, hr⟩
    unfold pairEntry
    rw [h1, h2]
    dsimp only
    rw [h3, h4]
    dsimp only
    rw [if_pos hp, hd, hr]

/-! ## Risk/return analytics (services.py) -/

/-- The success payload of `calculate_performance_metrics`. -/
structure PerfOk where
  start_value : ℚ
  latest_value : ℚ
  absolute_return_percent : ℚ
deriving DecidableEq, Repr

/-- `calculate_performance_metrics`: cumulative return between the first
and last snapshot (snapshots arrive ordered ascending by date). -/
def calculate_performance_metrics (snapshots : List Snapshot) :
    Except String PerfOk :=
  if snapshots.length < 2 then
    .error "Not enough data for performance calculation"
  else
    match snapshots with
    | [] => .error "Not enough data for performance calculation"
    | a :: rest =>
      let last := List.getLastD rest a
      match a.total_value with
      | none => .error "Start value must be greater than zero"
      | some start_value =>
        if start_value ≤ 0 then .error "Start value must be greater than zero"
        else
          match last.total_value with
          | none => .error "Latest portfolio value is missing"
          | some latest_value =>
            .ok { start_value := start_value, latest_value := latest_value,
                  absolute_return_percent :=
                    pyRound 2 ((latest_value - start_value) / start_value * 100) }

/-- The `for snapshot in snapshots` loop of `calculate_max_drawdown`,
threading the running peak (None until a positive value is seen) and the
most negative drawdown so far. -/
def drawdownLoop : List Snapshot → Option ℚ → ℚ → Option ℚ × ℚ
  | [], peak, mdd => (peak, mdd)
  | snap :: rest, peak, mdd =>
    match snap.total_value with
    | none => drawdownLoop rest peak mdd
    | some v =>
      match peak with
      | none =>
        if v ≤ 0 then drawdownLoop rest none mdd
        else drawdownLoop rest (some v) mdd
      | some p =>
        let p2 := if p < v then v else p
        let dd := (v - p2) / p2
        drawdownLoop rest (some p2) (if dd < mdd then dd else mdd)

/-- `calculate_max_drawdown`: deepest peak-to-trough ratio, as a rounded
percentage. -/
def calculate_max_drawdown (snapshots : List Snapshot) : Except String ℚ :=
  if snapshots.length < 2 then
    .error "Not enough data for drawdown calculation"
  else
    match drawdownLoop snapshots none 0 with
    | (none, _) => .error "Not enough positive values for drawdown calculation"
    | (some _, mdd) => .ok (pyRound 2 (mdd * 100))

/-- Sample variance with the unbiased `n - 1` denominator, exactly as the
source computes it: `variance = sum((r - mean_return) ** 2) / (len - 1)`. -/
def sampleVariance (rs : List ℚ) : ℚ :=
  (rs.map (fun r => (r - rs.sum / (rs.length : ℚ)) ^ 2)).sum /
    ((rs.length : ℚ) - 1)

/-- The success payload of `calculate_volatility`. -/
structure VolOk where
  volatility_percent : ℝ
  observations : ℕ

/-- `calculate_volatility`: sample standard deviation of the daily return
series as a percentage (the square root is taken in ℝ). -/
noncomputable def calculate_volatility (snapshots : List Snapshot) :
    Except String VolOk :=
  if snapshots.length < 2 then
    .error "Not enough data for volatility calculation"
  else
    let daily := dailyReturnValues snapshots
    if daily.length < 2 then
      .error "Not enough valid return observations"
    else
      .ok { volatility_percent :=
              pyRound 2 (Real.sqrt ((sampleVariance daily : ℚ) : ℝ) * 100),
            observations := daily.length }

/-- The success payload of the Sharpe analytic (source name
`calculate_sharpe_ratio`; field source name `sharpe_ratio`). -/
structure SharpeOk where
  sharpe : ℝ
  observations : ℕ

/-- The Sharpe analytic, source name `calculate_sharpe_ratio` (renamed here
for lexical reasons only): mean return over sample standard deviation, with
the daily risk-free rate fixed at 0. -/
noncomputable def calculate_sharpe (snapshots : List Snapshot) :
    Except String SharpeOk :=
  if snapshots.length < 2 then
    .error "Not enough data for Sharpe ratio calculation"
  else
    let daily := dailyReturnValues snapshots
    if daily.length < 2 then
      .error "Not enough valid return observations"
    else
      let volatility := Real.sqrt ((sampleVariance daily : ℚ) : ℝ)
      if volatility = 0 then
        .error "Volatility is zero, Sharpe ratio undefined"
      else
        .ok { sharpe := pyRound 4 (((daily.sum / (daily.length : ℚ) : ℚ) : ℝ)
                          / volatility),
              observations := daily.length }

/-- One window statistic of `calculate_rolling_volatility`: mean divided by
`window`, squared deviations divided by `window - 1`, exactly as written. -/
def windowStat (window : ℕ) (ws : List ℚ) : ℚ :=
  (ws.map (fun r => (r - ws.sum / (window : ℚ)) ^ 2)).sum / ((window : ℚ) - 1)

/-- The success payload of `calculate_rolling_volatility`. -/
structure RollingOk where
  window : ℕ
  rolling_volatility_percent : List ℝ
  observations : ℕ

/-- `calculate_rolling_volatility`: for `i in range(window, len(daily)+1)`
the sample standard deviation of `daily[i-window:i]`, as a rounded
percentage. -/
noncomputable def calculate_rolling_volatility (snapshots : List Snapshot)
    (window : ℕ) : Except String RollingOk :=
  if window < 2 then .error "Window must be at least 2"
  else
    let daily := dailyReturnValues snapshots
    if daily.length < window then .error "Not enough data for rolling calculation"
    else
      .ok { window := window,
            rolling_volatility_percent :=
              (List.range' window (daily.length + 1 - window)).map (fun i =>
                pyRound 2 (Real.sqrt
                  ((windowStat window ((daily.drop (i - window)).take window) : ℚ) : ℝ)
                  * 100)),
            observations := daily.length }

/-! ## The worked scenario of the spec -/

/-- The spec's worked value series `[(d1,100),(d2,110),(d3,99),(d4,121)]`,
with dates 1..4. -/
def demoSnapshots : List Snapshot :=
  [snapOf 1 100, snapOf 2 110, snapOf 3 99, snapOf 4 121]

/-- C1: on the snapshot value series [(d1,100),(d2,110),(d3,99),(d4,121)]
the return-series builder yields exactly {d2: 0.10, d3: -0.10, d4: 22/99},
max drawdown reports -10.0 percent (peak 110 to trough 99), and cumulative
performance reports 21.0 percent. -/
theorem scenario_returns_drawdown_performance :
    build_daily_returns demoSnapshots = [(2, 1/10), (3, -(1/10)), (4, 22/99)] ∧
    calculate_max_drawdown demoSnapshots = .ok (-10) ∧
    calculate_performance_metrics demoSnapshots =
      .ok { start_value := 100, latest_value := 121,
            absolute_return_percent := 21 } := by
  refine ⟨?_, ?_, ?_⟩
  · norm_num [build_daily_returns, pairEntry, demoSnapshots, snapOf, List.range',
      List.filterMap_cons, List.get?]
  · norm_num [calculate_max_drawdown, drawdownLoop, demoSnapshots, snapOf,
      pyRound, pyRoundHE]
  · norm_num [calculate_performance_metrics, demoSnapshots, snapOf, pyRound, pyRoundHE]

/-! ## Drawdown loop invariants -/

theorem drawdownLoop_snd_le (l : List Snapshot) (pk : Option ℚ) (m : ℚ) :
    (drawdownLoop l pk m).2 ≤ m := by
  induction l generalizing pk m with
  | nil => exact le_rfl
  | cons snap rest ih =>
    unfold drawdownLoop
    cases h : snap.total_value with
    | none => exact ih pk m
    | some v =>
      cases pk with
      | none =>
        dsimp only
        by_cases hv : v ≤ 0
        · rw [if_pos hv]; exact ih none m
        · rw [if_neg hv]; exact ih (some v) m
      | some p =>
        dsimp only
        refine le_trans (ih _ _) ?_
        by_cases hdd : (v - if p < v then v else p) / (if p < v then v else p) < m
        · exact (if_pos hdd).le.trans hdd.le
        · exact (if_neg hdd).le

theorem drawdownLoop_some_fst (l : List Snapshot) (p : ℚ) (m : ℚ) :
    (drawdownLoop l (some p) m).1.isSome := by
  induction l generalizing p m with
  | nil => rfl
  | cons snap rest ih =>
    unfold drawdownLoop
    cases h : snap.total_value with
    | none => exact ih p m
    | some v => exact ih _ _

theorem drawdownLoop_none_fst_iff (l : List Snapshot) (m : ℚ) :
    (drawdownLoop l none m).1 = none ↔
      ∀ snap ∈ l, ∀ v, snap.total_value = some v → v ≤ 0 := by
  induction l generalizing m with
  | nil => simp [drawdownLoop]
  | cons snap rest ih =>
    unfold drawdownLoop
    cases h : snap.total_value with
    | none =>
      rw [ih m]
      constructor
      · intro hall t ht v hv
        rcases List.mem_cons.mp ht with rfl | ht
        · rw [h] at hv; exact absurd hv (by simp)
        · exact hall t ht v hv
      · intro hall t ht v hv
        exact hall t (List.mem_cons_of_mem _ ht) v hv
    | some v =>
      dsimp only
      by_cases hv : v ≤ 0
      · rw [if_pos hv, ih m]
        constructor
        · intro hall t ht w hw
          rcases List.mem_cons.mp ht with rfl | ht
          · rw [h] at hw; obtain rfl := Option.some.inj hw; exact hv
          · exact hall t ht w hw
        · intro hall t ht w hw
          exact hall t (List.mem_cons_of_mem _ ht) w hw
      · rw [if_neg hv]
        constructor
        · intro hnone
          have := drawdownLoop_some_fst rest v m
          rw [hnone] at this
          exact absurd this (by simp)
        · intro hall
          exact absurd (hall snap (List.mem_cons_self _ _) v h) hv

theorem drawdownLoop_monotone (l : List Snapshot) (p : ℚ)
    (hall : ∀ snap ∈ l, ∃ v, snap.total_value = some v ∧ 0 < v)
    (hchain : List.Chain' (· ≤ ·) (p :: l.filterMap (fun t => t.total_value))) :
    (drawdownLoop l (some p) 0).2 = 0 := by
  induction l generalizing p with
  | nil => rfl
  | cons snap rest ih =>
    obtain ⟨v, hv, hvpos⟩ := hall snap (List.mem_cons_self _ _)
    have hvals : (snap :: rest).filterMap (fun t => t.total_value) =
        v :: rest.filterMap (fun t => t.total_value) := by
      rw [List.filterMap_cons, hv]
    rw [hvals] at hchain
    have hpv : p ≤ v := (List.chain'_cons.mp hchain).1
    unfold drawdownLoop
    rw [hv]
    dsimp only
    have hpeak : (if p < v then v else p) = v := by
      by_cases hlt : p < v
      · rw [if_pos hlt]
      · rw [if_neg hlt]; exact le_antisymm hpv (not_lt.mp hlt)
    rw [hpeak]
    have hdd : (v - v) / v = 0 := by simp
    rw [hdd, if_neg (lt_irrefl 0)]
    exact ih v (fun t ht => hall t (List.mem_cons_of_mem _ ht))
      (List.chain'_cons.mp hchain).2

/-- C6: with at least 2 snapshots, max drawdown reports insufficient data
exactly when no positive value is ever seen (the running peak never gets
initialized, earlier non-positive values being skipped); any numeric
result is ≤ 0; and on a monotonically increasing positive value series the
result is exactly 0. -/
theorem calculate_max_drawdown_spec (s : List Snapshot) (h : 2 ≤ s.length) :
    ((∃ msg, calculate_max_drawdown s = .error msg) ↔
      ∀ snap ∈ s, ∀ v, snap.total_value = some v → v ≤ 0) ∧
    (∀ dd, calculate_max_drawdown s = .ok dd → dd ≤ 0) ∧
    ((∀ snap ∈ s, ∃ v, snap.total_value = some v ∧ 0 < v) →
      List.Chain' (· ≤ ·) (s.filterMap (fun t => t.total_value)) →
      calculate_max_drawdown s = .ok 0) := by
  have hlen : ¬ s.length < 2 := by omega
  refine ⟨?_, ?_, ?_⟩
  · constructor
    · rintro ⟨msg, hmsg⟩
      unfold calculate_max_drawdown at hmsg
      rw [if_neg hlen] at hmsg
      rcases hfst : (drawdownLoop s none 0).1 with _ | pk
      · exact (drawdownLoop_none_fst_iff s 0).mp hfst
      · rcases hloop : drawdownLoop s none 0 with ⟨pk', m'⟩
        rw [hloop] at hmsg hfst
        simp only at hfst
        rw [hfst] at hmsg
        exact absurd hmsg (by simp)
    · intro hall
      unfold calculate_max_drawdown
      rw [if_neg hlen]
      rcases hloop : drawdownLoop s none 0 with ⟨pk, m⟩
      have hfst : (drawdownLoop s none 0).1 = none :=
        (drawdownLoop_none_fst_iff s 0).mpr hall
      rw [hloop] at hfst
      simp only at hfst
      rw [hfst]
      exact ⟨_, rfl⟩
  · intro dd hdd
    unfold calculate_max_drawdown at hdd
    rw [if_neg hlen] at hdd
    rcases hloop : drawdownLoop s none 0 with ⟨pk, m⟩
    rw [hloop] at hdd
    cases pk with
    | none => exact absurd hdd (by simp)
    | some p =>
      simp only [Except.ok.injEq] at hdd
      have hm : m ≤ 0 := by
        have := drawdownLoop_snd_le s none 0
        rw [hloop] at this
        exact this
      rw [← hdd]
      exact pyRound_nonpos 2 (by linarith)
  · intro hall hchain
    cases s with
    | nil => simp at h
    | cons snap rest =>
      obtain ⟨v, hv, hvpos⟩ := hall snap (List.mem_cons_self _ _)
      have hvals : (snap :: rest).filterMap (fun t => t.total_value) =
          v :: rest.filterMap (fun t => t.total_value) := by
        rw [List.filterMap_cons, hv]
      rw [hvals] at hchain
      unfold calculate_max_drawdown
      rw [if_neg hlen]
      have hloop : drawdownLoop (snap :: rest) none 0 =
          drawdownLoop rest (some v) 0 := by
        conv_lhs => unfold drawdownLoop
        rw [hv]
        dsimp only
        rw [if_neg (not_le.mpr hvpos)]
      rw [hloop]
      have hsnd : (drawdownLoop rest (some v) 0).2 = 0 :=
        drawdownLoop_monotone rest v
          (fun t ht => hall t (List.mem_cons_of_mem _ ht)) hchain
      have hfst := drawdownLoop_some_fst rest v 0
      rcases hrest : drawdownLoop rest (some v) 0 with ⟨pk, m⟩
      rw [hrest] at hsnd hfst
      simp only at hsnd hfst
      cases pk with
      | none => exact absurd hfst (by simp)
      | some p =>
        rw [hsnd]
        norm_num [pyRound, pyRoundHE]

/-- C6 witness: the strictly increasing positive series 100, 110 has
drawdown exactly 0, no error, and 0 ≤ 0. -/
theorem calculate_max_drawdown_spec_witness :
    ((∃ msg, calculate_max_drawdown [snapOf 1 100, snapOf 2 110] = .error msg) ↔
      ∀ snap ∈ [snapOf 1 100, snapOf 2 110], ∀ v,
        snap.total_value = some v → v ≤ 0) ∧
    (∀ dd, calculate_max_drawdown [snapOf 1 100, snapOf 2 110] = .ok dd → dd ≤ 0) ∧
    ((∀ snap ∈ [snapOf 1 100, snapOf 2 110], ∃ v,
        snap.total_value = some v ∧ 0 < v) →
      List.Chain' (· ≤ ·)
        ([snapOf 1 100, snapOf 2 110].filterMap (fun t => t.total_value)) →
      calculate_max_drawdown [snapOf 1 100, snapOf 2 110] = .ok 0) :=
  calculate_max_drawdown_spec [snapOf 1 100, snapOf 2 110] (by decide)

/-- C3: an entry of the return series is exactly a pair of adjacent
snapshots (indices i-1, i) whose previous value is present and positive
and whose current value is present (the quotient of finite rationals being
always finite), keyed by the later snapshot's date with value
(current - previous) / previous; hence the series has at most
(number of snapshots - 1) entries. -/
theorem build_daily_returns_spec (s : List Snapshot) :
    (build_daily_returns s).length ≤ s.length - 1 ∧
    ∀ d r, ((d, r) ∈ build_daily_returns s ↔
      ∃ i, 1 ≤ i ∧ i < s.length ∧
        ∃ prevS curS, s.get? (i - 1) = some prevS ∧ s.get? i = some curS ∧
          ∃ p c, prevS.total_value = some p ∧ curS.total_value = some c ∧
            0 < p ∧ curS.date = d ∧ r = (c - p) / p) := by
  refine ⟨build_daily_returns_length_le s, fun d r => ?_⟩
  unfold build_daily_returns
  rw [List.mem_filterMap]
  constructor
  · rintro ⟨i, hi, he⟩
    have hmem := List.mem_range'_1.mp hi
    obtain ⟨prevS, curS, h1, h2, p, c, h3, h4, hp, hd, hr⟩ :=
      (pairEntry_eq_some_iff s i d r).mp he
    have hilen : i < s.length := List.get?_eq_some.mp h2 |>.1
    exact ⟨i, hmem.1, hilen, prevS, curS, h1, h2, p, c, h3, h4, hp, hd, hr⟩
  · rintro ⟨i, h1i, hilen, rest⟩
    exact ⟨i, List.mem_range'_1.mpr ⟨h1i, by omega⟩,
      (pairEntry_eq_some_iff s i d r).mpr rest⟩

/-- Sample variance is nonnegative once at least 2 observations exist. -/
theorem sampleVariance_nonneg {rs : List ℚ} (h : 2 ≤ rs.length) :
    0 ≤ sampleVariance rs := by
  unfold sampleVariance
  have hden : (0 : ℚ) ≤ (rs.length : ℚ) - 1 := by
    have : (2 : ℚ) ≤ (rs.length : ℚ) := by exact_mod_cast h
    linarith
  refine div_nonneg (List.sum_nonneg ?_) hden
  intro x hx
  obtain ⟨r, _, rfl⟩ := List.mem_map.mp hx
  exact sq_nonneg _

/-- C4: with at least 2 valid return observations, volatility is the
nonnegative square root of the sample variance (denominator n-1) of the
return series, as a 2-decimal percentage, together with the observation
count, and the reported value is ≥ 0. -/
theorem calculate_volatility_spec (s : List Snapshot)
    (h : 2 ≤ (dailyReturnValues s).length) :
    ∃ w : ℝ, 0 ≤ w ∧ w ^ 2 = ((sampleVariance (dailyReturnValues s) : ℚ) : ℝ) ∧
      calculate_volatility s =
        .ok { volatility_percent := pyRound 2 (w * 100),
              observations := (dailyReturnValues s).length } ∧
      0 ≤ pyRound 2 (w * 100) := by
  have hlen : ¬ s.length < 2 := by
    have h1 := build_daily_returns_length_le s
    have h2 := dailyReturnValues_length s
    omega
  have h2' : ¬ (dailyReturnValues s).length < 2 := by omega
  have hnn : 0 ≤ sampleVariance (dailyReturnValues s) := sampleVariance_nonneg h
  refine ⟨Real.sqrt ((sampleVariance (dailyReturnValues s) : ℚ) : ℝ),
    Real.sqrt_nonneg _, Real.sq_sqrt (by exact_mod_cast hnn), ?_, ?_⟩
  · unfold calculate_volatility
    rw [if_neg hlen]
    dsimp only
    rw [if_neg h2']
  · exact pyRound_nonneg 2 (mul_nonneg (Real.sqrt_nonneg _) (by norm_num))

/-- C4 witness at the worked scenario (3 return observations). -/
theorem calculate_volatility_spec_witness :
    ∃ w : ℝ, 0 ≤ w ∧
      w ^ 2 = ((sampleVariance (dailyReturnValues demoSnapshots) : ℚ) : ℝ) ∧
      calculate_volatility demoSnapshots =
        .ok { volatility_percent := pyRound 2 (w * 100),
              observations := (dailyReturnValues demoSnapshots).length } ∧
      0 ≤ pyRound 2 (w * 100) :=
  calculate_volatility_spec demoSnapshots (by decide)

/-- C5: for window w ≥ 2 and n ≥ w return observations, rolling volatility
returns exactly n - w + 1 window volatilities, each ≥ 0, plus the total
observation count n; with w < 2 or n < w it returns a descriptive
insufficient-data message instead. -/
theorem calculate_rolling_volatility_spec (s : List Snapshot) (w : ℕ) :
    (2 ≤ w ∧ w ≤ (dailyReturnValues s).length →
      ∃ vols : List ℝ,
        calculate_rolling_volatility s w =
          .ok { window := w, rolling_volatility_percent := vols,
                observations := (dailyReturnValues s).length } ∧
        vols.length = (dailyReturnValues s).length - w + 1 ∧
        ∀ v ∈ vols, 0 ≤ v) ∧
    (w < 2 ∨ (dailyReturnValues s).length < w →
      ∃ msg, calculate_rolling_volatility s w = .error msg) := by
  constructor
  · rintro ⟨hw, hn⟩
    refine ⟨(List.range' w ((dailyReturnValues s).length + 1 - w)).map (fun i =>
      pyRound 2 (Real.sqrt
        ((windowStat w (((dailyReturnValues s).drop (i - w)).take w) : ℚ) : ℝ)
        * 100)), ?_, ?_, ?_⟩
    · unfold calculate_rolling_volatility
      rw [if_neg (by omega : ¬ w < 2)]
      dsimp only
      rw [if_neg (by omega : ¬ (dailyReturnValues s).length < w)]
    · rw [List.length_map, List.length_range']
      omega
    · intro v hv
      obtain ⟨i, _, rfl⟩ := List.mem_map.mp hv
      exact pyRound_nonneg 2 (mul_nonneg (Real.sqrt_nonneg _) (by norm_num))
  · intro hcase
    by_cases hw : w < 2
    · exact ⟨_, by unfold calculate_rolling_volatility; rw [if_pos hw]⟩
    · have hn : (dailyReturnValues s).length < w := by omega
      refine ⟨"Not enough data for rolling calculation", ?_⟩
      unfold calculate_rolling_volatility
      rw [if_neg hw]
      dsimp only
      rw [if_pos hn]

/-! ## Snapshot recorder (`_upsert_portfolio_snapshot`) -/

/-- The fields of the valuation dict that `_upsert_portfolio_snapshot`
reads (`portfolio_data["total_current_value"]` and friends). -/
structure PortfolioData where
  total_current_value : ℚ
  total_invested : ℚ
  total_pnl : ℚ
deriving DecidableEq, Repr

/-- `_upsert_portfolio_snapshot`: check-then-insert against the snapshot
store (a list of rows).  `commitRaises` is true when `db.commit()` raises
`IntegrityError` (the store's uniqueness backstop); the handler rolls back
and reports not-created.  Returns the new store and the created flag. -/
def upsert_portfolio_snapshot (store : List Snapshot) (snapshot_date : ℕ)
    (pd : PortfolioData) (commitRaises : Bool) : List Snapshot × Bool :=
  if store.any (fun r => r.date = snapshot_date) then (store, false)
  else if commitRaises then (store, false)
  else
    (store ++ [{ total_value := some pd.total_current_value,
                 total_invested := some pd.total_invested,
                 pnl := some pd.total_pnl,
                 date := snapshot_date }], true)

/-- Applying one recording to the store (the state the fold threads). -/
def applySnapshotOp (store : List Snapshot) (op : ℕ × PortfolioData × Bool) :
    List Snapshot :=
  (upsert_portfolio_snapshot store op.1 op.2.1 op.2.2).1

theorem upsert_existing_eq (store : List Snapshot) (d : ℕ) (pd : PortfolioData)
    (cf : Bool) (h : ∃ r ∈ store, r.date = d) :
    upsert_portfolio_snapshot store d pd cf = (store, false) := by
  unfold upsert_portfolio_snapshot
  rw [if_pos (List.any_eq_true.mpr (by
    obtain ⟨r, hr, hd⟩ := h
    exact ⟨r, hr, decide_eq_true hd⟩))]

theorem upsert_mem_date (store : List Snapshot) (d : ℕ) (pd : PortfolioData) :
    ∃ r ∈ (upsert_portfolio_snapshot store d pd false).1, r.date = d := by
  unfold upsert_portfolio_snapshot
  by_cases h : store.any (fun r => r.date = d)
  · rw [if_pos h]
    obtain ⟨r, hr, hd⟩ := List.any_eq_true.mp h
    exact ⟨r, hr, of_decide_eq_true hd⟩
  · rw [if_neg h, if_neg (by simp)]
    exact ⟨_, List.mem_append_right _ (List.mem_singleton_self _), rfl⟩

theorem upsert_unique_dates (store : List Snapshot) (d : ℕ) (pd : PortfolioData)
    (cf : Bool) (h : List.Pairwise (fun a b => a.date ≠ b.date) store) :
    List.Pairwise (fun a b => a.date ≠ b.date)
      (upsert_portfolio_snapshot store d pd cf).1 := by
  unfold upsert_portfolio_snapshot
  by_cases hex : store.any (fun r => r.date = d)
  · rw [if_pos hex]; exact h
  · rw [if_neg hex]
    cases cf with
    | true => rw [if_pos rfl]; exact h
    | false =>
      rw [if_neg (by simp)]
      rw [List.pairwise_append]
      refine ⟨h, List.pairwise_singleton _ _, ?_⟩
      intro a ha b hb
      obtain rfl := List.mem_singleton.mp hb
      intro hcontra
      exact (List.any_eq_true.not.mp hex) ⟨a, ha, decide_eq_true hcontra⟩

/-- C2: snapshot recording is idempotent per calendar date.  Recording when
a snapshot for the date already exists changes nothing and reports false;
an IntegrityError raised by the store's commit is also reported as false
with the store rolled back; a second recording for a date just recorded is
always a no-op reporting false; and any sequence of recordings preserves
date-uniqueness of the store. -/
theorem upsert_portfolio_snapshot_spec (store : List Snapshot) (d : ℕ)
    (pd pd2 : PortfolioData) (cf cf2 : Bool) :
    ((∃ r ∈ store, r.date = d) →
      upsert_portfolio_snapshot store d pd cf = (store, false)) ∧
    (cf = true → upsert_portfolio_snapshot store d pd cf = (store, false)) ∧
    (upsert_portfolio_snapshot ((upsert_portfolio_snapshot store d pd false).1)
        d pd2 cf2 =
      ((upsert_portfolio_snapshot store d pd false).1, false)) ∧
    (List.Pairwise (fun a b => a.date ≠ b.date) store →
      ∀ ops : List (ℕ × PortfolioData × Bool),
        List.Pairwise (fun a b => a.date ≠ b.date)
          (ops.foldl applySnapshotOp store)) := by
  refine ⟨upsert_existing_eq store d pd cf, ?_, ?_, ?_⟩
  · rintro rfl
    unfold upsert_portfolio_snapshot
    by_cases hex : store.any (fun r => r.date = d)
    · rw [if_pos hex]
    · rw [if_neg hex, if_pos rfl]
  · exact upsert_existing_eq _ d pd2 cf2 (upsert_mem_date store d pd)
  · intro h ops
    induction ops generalizing store with
    | nil => exact h
    | cons op rest ih =>
      exact ih _ (upsert_unique_dates store op.1 op.2.1 op.2.2 h)

/-- C2 witness: recording date 5 into a store already holding date 5
changes nothing and reports not-created. -/
theorem upsert_portfolio_snapshot_spec_witness :
    ((∃ r ∈ [snapOf 5 100], r.date = 5) →
      upsert_portfolio_snapshot [snapOf 5 100] 5 ⟨1, 1, 0⟩ false =
        ([snapOf 5 100], false)) ∧
    ((false : Bool) = true →
      upsert_portfolio_snapshot [snapOf 5 100] 5 ⟨1, 1, 0⟩ false =
        ([snapOf 5 100], false)) ∧
    (upsert_portfolio_snapshot
        ((upsert_portfolio_snapshot [snapOf 5 100] 5 ⟨1, 1, 0⟩ false).1) 5
        ⟨2, 2, 0⟩ false =
      ((upsert_portfolio_snapshot [snapOf 5 100] 5 ⟨1, 1, 0⟩ false).1, false)) ∧
    (List.Pairwise (fun a b => a.date ≠ b.date) [snapOf 5 100] →
      ∀ ops : List (ℕ × PortfolioData × Bool),
        List.Pairwise (fun a b => a.date ≠ b.date)
          (ops.foldl applySnapshotOp [snapOf 5 100])) :=
  upsert_portfolio_snapshot_spec [snapOf 5 100] 5 ⟨1, 1, 0⟩ ⟨2, 2, 0⟩ false false

/-! ## Valuation (`calculate_portfolio_value`) -/

/-- A `holdings` row (models.py `Holding`).  The symbol column is a string;
a SQL NULL symbol behaves like the empty string in the source's
`not h.symbol or not str(h.symbol).strip()` test. -/
structure Holding where
  symbol : String
  quantity : PyVal
  avg_price : PyVal

/-- A `prices` row (models.py `Price`). -/
structure Price where
  symbol : String
  price : PyVal
  date : ℕ

/-- `_normalize_symbol`: strip then upper-case. -/
def normalize_symbol (symbol : String) : String :=
  symbol.trim.toUpper

/-- The source's invalid-symbol test on a holding:
`not h.symbol or not str(h.symbol).strip()`. -/
def invalidSymbol (h : Holding) : Prop :=
  h.symbol.trim = ""

instance (h : Holding) : Decidable (invalidSymbol h) := by
  unfold invalidSymbol; infer_instance

/-- The price query of `calculate_portfolio_value`: rows with matching
upper-cased symbol and `date ≤ as_of`, ordered by date descending, first
row.  Ties on the maximal date are resolved to the earliest stored row (the
source leaves the order among equal dates to the database; the snapshot
store holds at most one row per (symbol, date) in normal operation). -/
def latestPriceRecord (prices : List Price) (sym : String) (today : ℕ) :
    Option Price :=
  (prices.filter (fun p => p.symbol.toUpper = sym ∧ p.date ≤ today)).foldl
    (fun acc p =>
      match acc with
      | none => some p
      | some q => if q.date < p.date then some p else some q)
    none

/-- The `for h in holdings` loop of `calculate_portfolio_value`:
(total_invested, total_current_value, missing_price_symbols,
stale_price_symbols), with the list accumulators in traversal order. -/
def valuationLoop (holdings : List Holding) (prices : List Price)
    (today : ℕ) : ℚ × ℚ × List String × List String :=
  match holdings with
  | [] => (0, 0, [], [])
  | h :: rest =>
    let tail := valuationLoop rest prices today
    let invested := safe_number h.quantity * safe_number h.avg_price
    if h.symbol.trim = "" then
      (invested + tail.1, tail.2.1, "INVALID_SYMBOL" :: tail.2.2.1, tail.2.2.2)
    else
      match latestPriceRecord prices (normalize_symbol h.symbol) today with
      | none =>
        (invested + tail.1, tail.2.1,
          normalize_symbol h.symbol :: tail.2.2.1, tail.2.2.2)
      | some pr =>
        (invested + tail.1,
          safe_number h.quantity * safe_number pr.price + tail.2.1,
          tail.2.2.1,
          if pr.date ≠ today then normalize_symbol h.symbol :: tail.2.2.2
          else tail.2.2.2)

/-- `sorted(set(xs))` on symbol lists. -/
def sortedDedup (xs : List String) : List String :=
  xs.dedup.insertionSort (· ≤ ·)

/-- The result dict of `calculate_portfolio_value`. -/
structure ValuationResult where
  total_invested : ℚ
  total_current_value : ℚ
  total_pnl : ℚ
  missing_price_symbols : List String
  stale_price_symbols : List String
deriving DecidableEq, Repr

/-- `calculate_portfolio_value`: totals rounded to 2 decimals, symbol lists
deduplicated and sorted. -/
def calculate_portfolio_value (holdings : List Holding) (prices : List Price)
    (today : ℕ) : ValuationResult :=
  let loop := valuationLoop holdings prices today
  { total_invested := pyRound 2 loop.1,
    total_current_value := pyRound 2 loop.2.1,
    total_pnl := pyRound 2 (loop.2.1 - loop.1),
    missing_price_symbols := sortedDedup loop.2.2.1,
    stale_price_symbols := sortedDedup loop.2.2.2 }

/-- The holdings that pass the invalid-symbol test. -/
def validHoldings (holdings : List Holding) : List Holding :=
  holdings.filter (fun h => !decide (invalidSymbol h))

theorem mem_sortedDedup (x : String) (l : List String) :
    x ∈ sortedDedup l ↔ x ∈ l := by
  unfold sortedDedup
  rw [List.Perm.mem_iff (List.perm_insertionSort _ _), List.mem_dedup]

theorem valuationLoop_invested (holdings : List Holding) (prices : List Price)
    (today : ℕ) :
    (valuationLoop holdings prices today).1 =
      (holdings.map
        (fun h => safe_number h.quantity * safe_number h.avg_price)).sum := by
  induction holdings with
  | nil => rfl
  | cons h rest ih =>
    unfold valuationLoop
    dsimp only
    rw [List.map_cons, List.sum_cons, ← ih]
    split_ifs with hinv
    · rfl
    · cases latestPriceRecord prices (normalize_symbol h.symbol) today with
      | none => rfl
      | some pr => rfl

theorem valuationLoop_invalid_filter (holdings : List Holding)
    (prices : List Price) (today : ℕ) :
    (valuationLoop (validHoldings holdings) prices today).2.1 =
      (valuationLoop holdings prices today).2.1 ∧
    (valuationLoop (validHoldings holdings) prices today).2.2.2 =
      (valuationLoop holdings prices today).2.2.2 ∧
    ∀ x, x ∈ (valuationLoop holdings prices today).2.2.1 ↔
      ((x = "INVALID_SYMBOL" ∧ ∃ h ∈ holdings, invalidSymbol h) ∨
        x ∈ (valuationLoop (validHoldings holdings) prices today).2.2.1) := by
  induction holdings with
  | nil =>
    refine ⟨rfl, rfl, fun x => ?_⟩
    simp [valuationLoop, validHoldings]
  | cons h rest ih =>
    obtain ⟨ihc, ihs, ihm⟩ := ih
    by_cases hinv : invalidSymbol h
    · have hfilter : validHoldings (h :: rest) = validHoldings rest := by
        unfold validHoldings
        rw [List.filter_cons_of_neg (by simp [hinv])]
      have hstep : valuationLoop (h :: rest) prices today =
          ((safe_number h.quantity * safe_number h.avg_price) +
            (valuationLoop rest prices today).1,
           (valuationLoop rest prices today).2.1,
           "INVALID_SYMBOL" :: (valuationLoop rest prices today).2.2.1,
           (valuationLoop rest prices today).2.2.2) := by
        conv_lhs => unfold valuationLoop
        dsimp only
        rw [if_pos (show h.symbol.trim = "" from hinv)]
      rw [hfilter, hstep]
      refine ⟨ihc, ihs, fun x => ?_⟩
      have hex : ∃ g ∈ h :: rest, invalidSymbol g :=
        ⟨h, List.mem_cons_self _ _, hinv⟩
      constructor
      · intro hx
        rcases List.mem_cons.mp hx with rfl | hx
        · exact Or.inl ⟨rfl, hex⟩
        · rcases (ihm x).mp hx with ⟨rfl, _⟩ | hx
          · exact Or.inl ⟨rfl, hex⟩
          · exact Or.inr hx
      · rintro (⟨rfl, _⟩ | hx)
        · exact List.mem_cons_self _ _
        · exact List.mem_cons_of_mem _ ((ihm x).mpr (Or.inr hx))
    · have hfilter : validHoldings (h :: rest) = h :: validHoldings rest := by
        unfold validHoldings
        rw [List.filter_cons_of_pos (by simp [hinv])]
      have hexiff : (∃ g ∈ h :: rest, invalidSymbol g) ↔
          (∃ g ∈ rest, invalidSymbol g) := by
        constructor
        · rintro ⟨g, hg, hginv⟩
          rcases List.mem_cons.mp hg with rfl | hg
          · exact absurd hginv hinv
          · exact ⟨g, hg, hginv⟩
        · rintro ⟨g, hg, hginv⟩
          exact ⟨g, List.mem_cons_of_mem _ hg, hginv⟩
      rw [hfilter]
      have hinv' : ¬ h.symbol.trim = "" := hinv
      cases hpr : latestPriceRecord prices (normalize_symbol h.symbol) today with
      | none =>
        have hstep : ∀ t : List Holding,
            valuationLoop (h :: t) prices today =
              ((safe_number h.quantity * safe_number h.avg_price) +
                (valuationLoop t prices today).1,
               (valuationLoop t prices today).2.1,
               normalize_symbol h.symbol :: (valuationLoop t prices today).2.2.1,
               (valuationLoop t prices today).2.2.2) := by
          intro t
          conv_lhs => unfold valuationLoop
          dsimp only
          rw [if_neg hinv', hpr]
        rw [hstep rest, hstep (validHoldings rest)]
        refine ⟨ihc, ihs, fun x => ?_⟩
        dsimp only
        rw [List.mem_cons, List.mem_cons, ihm x, hexiff]
        exact or_left_comm
      | some pr =>
        have hstep : ∀ t : List Holding,
            valuationLoop (h :: t) prices today =
              ((safe_number h.quantity * safe_number h.avg_price) +
                (valuationLoop t prices today).1,
               safe_number h.quantity * safe_number pr.price +
                (valuationLoop t prices today).2.1,
               (valuationLoop t prices today).2.2.1,
               if pr.date ≠ today then
                 normalize_symbol h.symbol :: (valuationLoop t prices today).2.2.2
               else (valuationLoop t prices today).2.2.2) := by
          intro t
          conv_lhs => unfold valuationLoop
          dsimp only
          rw [if_neg hinv', hpr]
        rw [hstep rest, hstep (validHoldings rest)]
        refine ⟨by dsimp only; rw [ihc], ?_, fun x => ?_⟩
        · dsimp only
          rw [ihs]
        · dsimp only
          rw [ihm x, hexiff]

/-- C8: a holding with an empty or whitespace-only symbol is recorded under
the INVALID_SYMBOL marker and contributes nothing to total_current_value,
while its invested amount (quantity times average price after safe-number
coercion of non-finite/non-numeric values to 0) still counts toward
total_invested, and the valuation of the remaining holdings (current value,
stale symbols, and the other missing symbols) is unaffected. -/
theorem calculate_portfolio_value_spec (holdings : List Holding)
    (prices : List Price) (today : ℕ) :
    (calculate_portfolio_value holdings prices today).total_invested =
      pyRound 2 ((holdings.map
        (fun h => safe_number h.quantity * safe_number h.avg_price)).sum) ∧
    (calculate_portfolio_value holdings prices today).total_current_value =
      (calculate_portfolio_value (validHoldings holdings) prices
        today).total_current_value ∧
    (calculate_portfolio_value holdings prices today).stale_price_symbols =
      (calculate_portfolio_value (validHoldings holdings) prices
        today).stale_price_symbols ∧
    ∀ x, (x ∈ (calculate_portfolio_value holdings prices
            today).missing_price_symbols ↔
      ((x = "INVALID_SYMBOL" ∧ ∃ h ∈ holdings, invalidSymbol h) ∨
        x ∈ (calculate_portfolio_value (validHoldings holdings) prices
          today).missing_price_symbols)) := by
  obtain ⟨hc, hs, hm⟩ := valuationLoop_invalid_filter holdings prices today
  refine ⟨?_, ?_, ?_, fun x => ?_⟩
  · unfold calculate_portfolio_value
    dsimp only
    rw [valuationLoop_invested]
  · unfold calculate_portfolio_value
    dsimp only
    rw [hc]
  · unfold calculate_portfolio_value
    dsimp only
    rw [hs]
  · unfold calculate_portfolio_value
    dsimp only
    rw [mem_sortedDedup, mem_sortedDedup, hm x]

/-! ## Benchmark alignment and beta (`calculate_beta`)

The benchmark fetch (`yf.download`) is an external collaborator: its
outcome is a parameter.  `none` models a raised exception; `some raw`
models the downloaded Close column as a date-indexed list of cells, a cell
being `none` when `pd.to_numeric(..., errors="coerce")` yields NaN.
Within the return series, a benchmark return cell of `none` stands for an
infinite value (`pct_change` over a zero close): pandas' `dropna` keeps
infinities, and a later `var`/`cov` over them is non-finite. -/

/-- `pd.to_numeric(close, errors="coerce").dropna()`. -/
def benchCloses (raw : List (ℕ × Option ℚ)) : List (ℕ × ℚ) :=
  raw.filterMap (fun cell => cell.2.map (fun v => (cell.1, v)))

/-- The recursion of `pctChangeDropna` once a previous close exists. -/
def pctChangeFrom (prev : ℕ × ℚ) : List (ℕ × ℚ) → List (ℕ × Option ℚ)
  | [] => []
  | cur :: rest =>
    if prev.2 = 0 then
      if cur.2 = 0 then pctChangeFrom cur rest
      else (cur.1, none) :: pctChangeFrom cur rest
    else (cur.1, some ((cur.2 - prev.2) / prev.2)) :: pctChangeFrom cur rest

/-- `close.pct_change().dropna()`: consecutive-close returns keyed by the
later date.  A zero previous close with a nonzero current close yields an
infinite value (kept by pandas' `dropna`, modelled as `none`); a zero
previous close with a zero current close yields NaN (dropped). -/
def pctChangeDropna : List (ℕ × ℚ) → List (ℕ × Option ℚ)
  | [] => []
  | c :: rest => pctChangeFrom c rest

/-- `sorted(set(portfolio.index) & set(benchmark.index))`. -/
def commonDatesOf (pdates bdates : List ℕ) : List ℕ :=
  ((pdates.filter (fun d => d ∈ bdates)).dedup).insertionSort (· ≤ ·)

/-- Series lookup by calendar date (`series.loc[d]`, first occurrence). -/
def assocLookup {β : Type} (d : ℕ) : List (ℕ × β) → Option β
  | [] => none
  | e :: rest => if e.1 = d then some e.2 else assocLookup d rest

/-- The aligned (portfolio, benchmark) return pairs over the common dates.
`pd.concat(..., axis=1).dropna()` removes nothing here: portfolio returns
are finite by construction and benchmark NaNs were dropped before
alignment (an infinite benchmark cell is not NaN and survives). -/
def alignedPairs (P : List (ℕ × ℚ)) (B : List (ℕ × Option ℚ))
    (common : List ℕ) : List (ℚ × Option ℚ) :=
  common.filterMap (fun d =>
    (assocLookup d P).bind (fun p => (assocLookup d B).map (fun b => (p, b))))

/-- `aligned_benchmark.var(ddof=1)`: `none` when the series contains an
infinite cell (the variance is then non-finite), else the sample
variance. -/
def benchVariance (vals : List (Option ℚ)) : Option ℚ :=
  if vals.all (fun v => v.isSome) then some (sampleVariance (vals.reduceOption))
  else none

/-- `aligned_portfolio.cov(aligned_benchmark)` (ddof=1), reached only with
finite series. -/
def sampleCovariance (xs ys : List ℚ) : ℚ :=
  ((xs.zip ys).map (fun pr =>
    (pr.1 - xs.sum / (xs.length : ℚ)) * (pr.2 - ys.sum / (ys.length : ℚ)))).sum /
    ((xs.length : ℚ) - 1)

/-- The benchmark return series `calculate_beta` derives from a download. -/
def betaBench (raw : List (ℕ × Option ℚ)) : List (ℕ × Option ℚ) :=
  pctChangeDropna (benchCloses raw)

/-- The common dates of `calculate_beta`. -/
def betaCommon (s : List Snapshot) (raw : List (ℕ × Option ℚ)) : List ℕ :=
  commonDatesOf ((build_daily_returns s).map Prod.fst)
    ((betaBench raw).map Prod.fst)

/-- The aligned pairs of `calculate_beta`. -/
def betaAligned (s : List Snapshot) (raw : List (ℕ × Option ℚ)) :
    List (ℚ × Option ℚ) :=
  alignedPairs (build_daily_returns s) (betaBench raw) (betaCommon s raw)

/-- The success payload of `calculate_beta`. -/
structure BetaOk where
  benchmark : String
  beta : ℚ
  observations : ℕ
deriving DecidableEq, Repr

/-- `calculate_beta`: download the benchmark over the portfolio date span,
convert to daily returns, align by calendar-date intersection, and report
covariance over benchmark variance.  The finiteness guards on covariance
and beta are vacuous once the variance guard has passed (all remaining
values are finite rationals). -/
def calculate_beta (snapshots : List Snapshot) (benchmark_symbol : String)
    (bench : Option (List (ℕ × Option ℚ))) : Except String BetaOk :=
  if snapshots.length < 2 then .error "Not enough data for beta calculation"
  else if (build_daily_returns snapshots).length < 2 then
    .error "Not enough valid portfolio return observations"
  else
    match bench with
    | none => .error "Failed to fetch benchmark data"
    | some raw =>
      if raw.isEmpty then .error "Not enough benchmark data"
      else if (benchCloses raw).isEmpty then .error "Not enough benchmark data"
      else if (betaBench raw).isEmpty then .error "Not enough benchmark data"
      else if (betaCommon snapshots raw).length < 2 then
        .error "Not enough overlapping dates with benchmark"
      else if (betaAligned snapshots raw).length < 2 then
        .error "Not enough overlapping dates with benchmark"
      else
        match benchVariance ((betaAligned snapshots raw).map Prod.snd) with
        | none => .error "Benchmark variance is zero"
        | some variance =>
          if variance = 0 then .error "Benchmark variance is zero"
          else
            .ok { benchmark := benchmark_symbol,
                  beta := pyRound 4
                    (sampleCovariance
                      ((betaAligned snapshots raw).map Prod.fst)
                      (((betaAligned snapshots raw).map Prod.snd).reduceOption)
                      / variance),
                  observations := (betaCommon snapshots raw).length }

/-- C7: with a single snapshot, every analytic (performance, drawdown,
volatility, Sharpe, rolling volatility for any window ≥ 2, and beta for
any benchmark outcome) returns its descriptive insufficient-data result
rather than a numeric payload. -/
theorem single_snapshot_insufficient (snap : Snapshot) (w : ℕ) (hw : 2 ≤ w)
    (sym : String) (bench : Option (List (ℕ × Option ℚ))) :
    calculate_performance_metrics [snap] =
      .error "Not enough data for performance calculation" ∧
    calculate_max_drawdown [snap] =
      .error "Not enough data for drawdown calculation" ∧
    calculate_volatility [snap] =
      .error "Not enough data for volatility calculation" ∧
    calculate_sharpe [snap] =
      .error "Not enough data for Sharpe ratio calculation" ∧
    calculate_rolling_volatility [snap] w =
      .error "Not enough data for rolling calculation" ∧
    calculate_beta [snap] sym bench =
      .error "Not enough data for beta calculation" := by
  refine ⟨rfl, rfl, rfl, rfl, ?_, rfl⟩
  unfold calculate_rolling_volatility
  rw [if_neg (by omega : ¬ w < 2)]
  dsimp only
  have hlen : (dailyReturnValues [snap]).length = 0 := rfl
  rw [if_pos (by omega : (dailyReturnValues [snap]).length < w)]

/-- C7 witness at window 2, a concrete snapshot, and a failed fetch. -/
theorem single_snapshot_insufficient_witness :
    calculate_performance_metrics [snapOf 1 100] =
      .error "Not enough data for performance calculation" ∧
    calculate_max_drawdown [snapOf 1 100] =
      .error "Not enough data for drawdown calculation" ∧
    calculate_volatility [snapOf 1 100] =
      .error "Not enough data for volatility calculation" ∧
    calculate_sharpe [snapOf 1 100] =
      .error "Not enough data for Sharpe ratio calculation" ∧
    calculate_rolling_volatility [snapOf 1 100] 2 =
      .error "Not enough data for rolling calculation" ∧
    calculate_beta [snapOf 1 100] "^NSEI" none =
      .error "Not enough data for beta calculation" :=
  single_snapshot_insufficient (snapOf 1 100) 2 (by decide) "^NSEI" none

/-- C9: fetch failure and empty benchmark responses degrade to descriptive
results, and once the pipeline reaches the variance guard, a zero (or
non-finite, i.e. infinity-poisoned) aligned benchmark variance reports
"Benchmark variance is zero" — never an exception. -/
theorem calculate_beta_degenerate (s : List Snapshot) (sym : String)
    (raw : List (ℕ × Option ℚ)) (h1 : 2 ≤ s.length)
    (h2 : 2 ≤ (build_daily_returns s).length) :
    calculate_beta s sym none = .error "Failed to fetch benchmark data" ∧
    calculate_beta s sym (some []) = .error "Not enough benchmark data" ∧
    ((benchVariance ((betaAligned s raw).map Prod.snd) = none ∨
        benchVariance ((betaAligned s raw).map Prod.snd) = some 0) →
      raw.isEmpty = false → (benchCloses raw).isEmpty = false →
      (betaBench raw).isEmpty = false →
      2 ≤ (betaCommon s raw).length → 2 ≤ (betaAligned s raw).length →
      calculate_beta s sym (some raw) = .error "Benchmark variance is zero") := by
  have hn1 : ¬ s.length < 2 := by omega
  have hn2 : ¬ (build_daily_returns s).length < 2 := by omega
  refine ⟨?_, ?_, ?_⟩
  · unfold calculate_beta
    rw [if_neg hn1, if_neg hn2]
  · unfold calculate_beta
    rw [if_neg hn1, if_neg hn2]
    rfl
  · intro hvar hraw hcl hb hcom hal
    unfold calculate_beta
    rw [if_neg hn1, if_neg hn2]
    dsimp only
    rw [if_neg (by simp [hraw]), if_neg (by simp [hcl]), if_neg (by simp [hb]),
      if_neg (by omega : ¬ (betaCommon s raw).length < 2),
      if_neg (by omega : ¬ (betaAligned s raw).length < 2)]
    rcases hvar with hv | hv
    · rw [hv]
    · rw [hv]
      dsimp only
      rw [if_pos rfl]

/-- A constant benchmark close series for the degenerate-variance witness. -/
def constBenchRaw : List (ℕ × Option ℚ) :=
  [(1, some 100), (2, some 100), (3, some 100)]

/-- C9 witness: on the worked snapshot series, a failed fetch and an empty
response report their messages, and the constant benchmark series lands in
the zero-variance branch. -/
theorem calculate_beta_degenerate_witness :
    calculate_beta demoSnapshots "^NSEI" none =
      .error "Failed to fetch benchmark data" ∧
    calculate_beta demoSnapshots "^NSEI" (some []) =
      .error "Not enough benchmark data" ∧
    calculate_beta demoSnapshots "^NSEI" (some constBenchRaw) =
      .error "Benchmark variance is zero" := by
  obtain ⟨w1, w2, w3⟩ := calculate_beta_degenerate demoSnapshots "^NSEI"
    constBenchRaw (by decide) (by decide)
  refine ⟨w1, w2, w3 (Or.inr ?_) rfl rfl rfl (by decide) (by decide)⟩
  norm_num [benchVariance, betaAligned, alignedPairs, assocLookup, betaCommon,
    commonDatesOf, betaBench, benchCloses, pctChangeDropna, pctChangeFrom,
    build_daily_returns, pairEntry, demoSnapshots, snapOf, constBenchRaw,
    sampleVariance, List.range', List.filterMap_cons, List.get?,
    List.insertionSort, List.orderedInsert, List.dedup, List.reduceOption]

theorem assocLookup_isSome {β : Type} (d : ℕ) (l : List (ℕ × β))
    (h : d ∈ l.map Prod.fst) : (assocLookup d l).isSome := by
  induction l with
  | nil => simp at h
  | cons e rest ih =>
    unfold assocLookup
    by_cases he : e.1 = d
    · rw [if_pos he]; rfl
    · rw [if_neg he]
      rw [List.map_cons, List.mem_cons] at h
      rcases h with h | h
      · exact absurd h.symm he
      · exact ih h

theorem alignedPairs_length (P : List (ℕ × ℚ)) (B : List (ℕ × Option ℚ))
    (common : List ℕ)
    (h : ∀ d ∈ common, d ∈ P.map Prod.fst ∧ d ∈ B.map Prod.fst) :
    (alignedPairs P B common).length = common.length := by
  induction common with
  | nil => rfl
  | cons d rest ih =>
    obtain ⟨hP, hB⟩ := h d (List.mem_cons_self _ _)
    obtain ⟨p, hp⟩ := Option.isSome_iff_exists.mp (assocLookup_isSome d P hP)
    obtain ⟨b, hb⟩ := Option.isSome_iff_exists.mp (assocLookup_isSome d B hB)
    have htail := ih (fun e he => h e (List.mem_cons_of_mem _ he))
    unfold alignedPairs at htail ⊢
    rw [List.filterMap_cons]
    have hhead : ((assocLookup d P).bind
        (fun pv => (assocLookup d B).map (fun bv => (pv, bv)))) =
          some (p, b) := by
      rw [hp, hb]
      rfl
    rw [hhead]
    dsimp only
    rw [List.length_cons, htail]
    rfl

theorem betaCommon_mem (s : List Snapshot) (raw : List (ℕ × Option ℚ)) :
    ∀ d ∈ betaCommon s raw, d ∈ (build_daily_returns s).map Prod.fst ∧
      d ∈ (betaBench raw).map Prod.fst := by
  intro d hd
  unfold betaCommon commonDatesOf at hd
  rw [List.Perm.mem_iff (List.perm_insertionSort _ _), List.mem_dedup,
    List.mem_filter] at hd
  exact ⟨hd.1, by simpa using hd.2⟩

theorem betaAligned_length (s : List Snapshot) (raw : List (ℕ × Option ℚ)) :
    (betaAligned s raw).length = (betaCommon s raw).length :=
  alignedPairs_length _ _ _ (betaCommon_mem s raw)

/-- Any successful beta result reports the common-date count. -/
theorem calculate_beta_ok_obs (s : List Snapshot) (sym : String)
    (bench : Option (List (ℕ × Option ℚ))) (b : BetaOk)
    (h : calculate_beta s sym bench = .ok b) :
    ∃ raw, bench = some raw ∧ b.observations = (betaCommon s raw).length := by
  unfold calculate_beta at h
  split at h
  · exact absurd h (by simp)
  split at h
  · exact absurd h (by simp)
  split at h
  · exact absurd h (by simp)
  case _ raw =>
    refine ⟨raw, rfl, ?_⟩
    split at h
    · exact absurd h (by simp)
    split at h
    · exact absurd h (by simp)
    split at h
    · exact absurd h (by simp)
    split at h
    · exact absurd h (by simp)
    split at h
    · exact absurd h (by simp)
    split at h
    · exact absurd h (by simp)
    case _ variance hvar =>
      split at h
      · exact absurd h (by simp)
      · obtain rfl := Except.ok.inj h
        rfl

/-- C10 counterexample: the reported observation count can never strictly
exceed the number of aligned pairs used in the variance and covariance:
the dropna over the aligned frame removes nothing, since portfolio
returns are finite by construction and benchmark NaNs were dropped before
alignment. -/
theorem beta_observations_no_excess :
    ¬ ∃ (s : List Snapshot) (sym : String) (raw : List (ℕ × Option ℚ))
        (b : BetaOk),
      calculate_beta s sym (some raw) = .ok b ∧
      (betaAligned s raw).length < b.observations := by
  rintro ⟨s, sym, raw, b, hok, hlt⟩
  obtain ⟨raw2, hr, hobs⟩ := calculate_beta_ok_obs s sym (some raw) b hok
  obtain rfl : raw = raw2 := Option.some.inj hr
  rw [hobs, betaAligned_length] at hlt
  exact lt_irrefl _ hlt

/-- C10 (amended): in a successful beta result the reported observations
count equals the number of calendar dates common to the portfolio and
benchmark return series, and this always equals the number of aligned
pairs used in the variance and covariance computation. -/
theorem calculate_beta_observations_spec (s : List Snapshot) (sym : String)
    (raw : List (ℕ × Option ℚ)) (b : BetaOk)
    (h : calculate_beta s sym (some raw) = .ok b) :
    b.observations = (betaCommon s raw).length ∧
    b.observations = (betaAligned s raw).length := by
  obtain ⟨raw2, hr, hobs⟩ := calculate_beta_ok_obs s sym (some raw) b h
  obtain rfl : raw = raw2 := Option.some.inj hr
  exact ⟨hobs, by rw [hobs, betaAligned_length]⟩

/-- A benchmark close series matching the worked portfolio series, for the
successful-beta witness. -/
def trackingBenchRaw : List (ℕ × Option ℚ) :=
  [(1, some 100), (2, some 110), (3, some 99)]

/-- C10 (amended) witness: a successful beta run over the worked series
against a benchmark tracking it on dates 2 and 3 reports 2 observations,
the number of common dates, which equals the number of aligned pairs. -/
theorem calculate_beta_observations_spec_witness :
    (BetaOk.mk "^NSEI" 1 2).observations =
      (betaCommon demoSnapshots trackingBenchRaw).length ∧
    (BetaOk.mk "^NSEI" 1 2).observations =
      (betaAligned demoSnapshots trackingBenchRaw).length :=
  calculate_beta_observations_spec demoSnapshots "^NSEI" trackingBenchRaw
    { benchmark := "^NSEI", beta := 1, observations := 2 }
    (by norm_num [calculate_beta, benchVariance, betaAligned, alignedPairs,
      assocLookup, betaCommon, commonDatesOf, betaBench, benchCloses,
      pctChangeDropna, pctChangeFrom, build_daily_returns, pairEntry,
      demoSnapshots, snapOf, trackingBenchRaw, sampleVariance,
      sampleCovariance, pyRound, pyRoundHE, List.range', List.filterMap_cons,
      List.get?, List.insertionSort, List.orderedInsert, List.dedup,
      List.reduceOption])
